import Mathlib

/-!
Shallow embedding of the core of `finplot.py` (classes `PandasDataSource` and
`FinViewBox`, plus the module-level function `set_y_range`), together with
proofs about the behaviour that the specification describes.

Modelling conventions:
* Numeric values (epoch times and series values) are rationals `ℚ`; the pandas
  DataFrame is a list of rows, each row holding its time (first column) and the
  list of remaining value columns in order.
* Stateful Python methods become Lean functions returning the updated object.
* The single-entry hi/lo cache (`cache_hilo_query` / `cache_hilo_answer`,
  initially `''` / `None`, always written together) is modelled as one
  `Option ((ℚ × ℚ) × HiLo)` field, `none` standing for the initial empty state.
  The source canonicalizes the key by formatting both bounds with
  `'%.9g,%.9g'`; we model the key as the exact pair of bounds, which agrees
  with the source whenever the formatting distinguishes the windows at hand.
-/

namespace Finplot

set_option maxRecDepth 10000

/-- One row of the table: the time value (first column) followed by the
remaining value columns in order (open, close, hi, lo, volume, ...). -/
structure Row where
  t : ℚ
  vals : List ℚ
deriving DecidableEq

/-- Result of `PandasDataSource._hilo` / `hilo`: the five-tuple
`(t0, t1, hi, lo, count)` returned by the source. -/
structure HiLo where
  t0 : ℚ
  t1 : ℚ
  hi : ℚ
  lo : ℚ
  cnt : ℕ
deriving DecidableEq

/-- State of `PandasDataSource`: the time-ordered table plus the scale-column skip count
and the single-entry hi/lo cache. -/
structure PandasDataSource where
  rows : List Row
  skip_scale_colcnt : ℕ
  cache_hilo : Option ((ℚ × ℚ) × HiLo)
deriving DecidableEq

/-- The row filter of `_hilo`: `(df[timecol]>=x0)&(df[timecol]<=x1)`. -/
def inWindow (x0 x1 : ℚ) (r : Row) : Bool :=
  decide (x0 ≤ r.t) && decide (r.t ≤ x1)

/-- The scaling-eligible cells of a row: `df.columns[self.skip_scale_colcnt:]`.
Column 0 is the time column, so a skip count of `k` drops the first `k - 1`
value columns. -/
def scaleVals (skip : ℕ) (r : Row) : List ℚ :=
  r.vals.drop (skip - 1)

/-- Maximum of a list of rationals (`df[valcols].max().max()`); `0` on the
empty list, a case the source only reaches when the skip count covers every
column (pandas would produce NaN there; no claim touches that case). -/
def listMax : List ℚ → ℚ
  | [] => 0
  | v :: vs => vs.foldl max v

/-- Minimum of a list of rationals (`df[valcols].min().min()`). -/
def listMin : List ℚ → ℚ
  | [] => 0
  | v :: vs => vs.foldl min v

/-- Embedding of `PandasDataSource._hilo`: filter rows to `time ∈ [x0, x1]`, return the
zero sentinel when empty, otherwise first/last time, max/min over the
scaling-eligible columns of the filtered rows, and the row count. -/
def PandasDataSource._hilo (s : PandasDataSource) (x0 x1 : ℚ) : HiLo :=
  match s.rows.filter (inWindow x0 x1) with
  | [] => ⟨0, 0, 0, 0, 0⟩
  | r :: rs =>
      ⟨r.t, (rs.getLast?.getD r).t,
       listMax ((r :: rs).map (scaleVals s.skip_scale_colcnt)).flatten,
       listMin ((r :: rs).map (scaleVals s.skip_scale_colcnt)).flatten,
       (r :: rs).length⟩

/-- Embedding of `PandasDataSource.hilo`: answer from the single-entry cache when the
canonicalized window matches the previous query, otherwise recompute via
`_hilo` and overwrite the cache. Returns the answer and the updated store. -/
def PandasDataSource.hilo (s : PandasDataSource) (x0 x1 : ℚ) :
    HiLo × PandasDataSource :=
  match s.cache_hilo with
  | some (q, ans) =>
      if q = (x0, x1) then (ans, s)
      else
        let ans' := s._hilo x0 x1
        (ans', { s with cache_hilo := some ((x0, x1), ans') })
  | none =>
      let ans' := s._hilo x0 x1
      (ans', { s with cache_hilo := some ((x0, x1), ans') })

/-- Embedding of `PandasDataSource.period`: `time[1] - time[0]`. The source raises
`IndexError` on a table of fewer than two rows; we return `0` there and no
claim depends on that case. -/
def PandasDataSource.period (s : PandasDataSource) : ℚ :=
  match s.rows with
  | r0 :: r1 :: _ => r1.t - r0.t
  | _ => 0

/-- Embedding of `PandasDataSource.addcols`: append the non-time columns of the other
table to this one, aligned by row position (`pd.concat(axis=1)`); the cache
fields are left untouched. The caller guarantees both tables share the same
time index, so rows are combined positionwise. -/
def PandasDataSource.addcols (s : PandasDataSource) (other : List Row) :
    PandasDataSource :=
  { s with rows := s.rows.zipWith (fun r o => ⟨r.t, r.vals ++ o.vals⟩) other }

/-- The bearish predicate of `bear_rows`: `open > close`, i.e. column 1 of
the table strictly above column 2. -/
def bearP (r : Row) : Bool :=
  decide (r.vals.getD 1 0 < r.vals.getD 0 0)

/-- The bullish predicate of `bull_rows`: `open <= close`. -/
def bullP (r : Row) : Bool :=
  decide (r.vals.getD 0 0 ≤ r.vals.getD 1 0)

/-- Embedding of `PandasDataSource.bear_rows`: the rows with open strictly above close,
in table order. -/
def PandasDataSource.bear_rows (s : PandasDataSource) : List Row :=
  s.rows.filter bearP

/-- Embedding of `PandasDataSource.bull_rows`: the rows with open at or below close,
in table order. -/
def PandasDataSource.bull_rows (s : PandasDataSource) : List Row :=
  s.rows.filter bullP

/-- A viewport rectangle in data coordinates, as built by
`QRectF(Point(x0, y0), Point(x1, y1))` with `padding=0`. -/
structure Rect where
  x0 : ℚ
  y0 : ℚ
  x1 : ℚ
  y1 : ℚ
deriving DecidableEq

/-- State of `FinViewBox`: the viewport controller state the claims touch — the bound
data source (nullable), the auto-Y-scale flag, the committed target
rectangle, the visibility of each registered heavy item (in registration
order), and the deferred-render countdown `heavies_blind_cnt`. -/
structure FinViewBox where
  datasrc : Option PandasDataSource
  auto_scale_y : Bool
  targetRect : Rect
  heavies : List Bool
  heavies_blind_cnt : ℤ
deriving DecidableEq

/-- The candidate X window computed by `scaleRect` before the range query:
the rectangle's left/right scaled about the zoom center (the rectangle's own
center when none is given) by `scale_fact`. -/
def zoomWindow (vr : Rect) (scale_fact : ℚ) (center : Option (ℚ × ℚ)) :
    ℚ × ℚ :=
  let c := center.getD ((vr.x0 + vr.x1) / 2, (vr.y0 + vr.y1) / 2)
  (c.1 + (vr.x0 - c.1) * scale_fact, c.1 + (vr.x1 - c.1) * scale_fact)

/-- The rectangle committed by an accepted rescale: time bounds padded by
half a period on each side, Y set to the returned lo/hi exactly. -/
def commitRect (p : ℚ) (r : HiLo) : Rect :=
  ⟨r.t0 - p / 2, r.lo, r.t1 + p / 2, r.hi⟩

/-- Embedding of `FinViewBox._setRange`: hide every registered heavy item, commit the
rectangle via `setRange(..., padding=0)` (which sets it exactly), and arm the
deferred-render countdown at 2 ticks. -/
def FinViewBox._setRange (vb : FinViewBox) (x0 y0 x1 y1 : ℚ) : FinViewBox :=
  { vb with
    heavies := vb.heavies.map (fun _ => false),
    targetRect := ⟨x0, y0, x1, y1⟩,
    heavies_blind_cnt := 2 }

/-- Embedding of `FinViewBox.scaleRect`: no-op without a data source; otherwise query
`hilo` over the scaled candidate window (updating the store's cache), reject
when fewer than 20 rows were found, and otherwise commit the padded
rectangle through `_setRange`. -/
def FinViewBox.scaleRect (vb : FinViewBox) (vr : Rect) (scale_fact : ℚ)
    (center : Option (ℚ × ℚ)) : FinViewBox :=
  match vb.datasrc with
  | none => vb
  | some ds =>
      let w := zoomWindow vr scale_fact center
      let r := ds.hilo w.1 w.2
      let vb' := { vb with datasrc := some r.2 }
      if r.1.cnt < 20 then vb'
      else vb'._setRange (r.1.t0 - r.2.period / 2) r.1.lo
        (r.1.t1 + r.2.period / 2) r.1.hi

/-- Embedding of `FinViewBox.show_heavies` (the 50 ms timer tick): decrement the
countdown; when it lands exactly on zero, make every registered heavy item
visible, otherwise do nothing further. -/
def FinViewBox.show_heavies (vb : FinViewBox) : FinViewBox :=
  let cnt := vb.heavies_blind_cnt - 1
  if cnt ≠ 0 then { vb with heavies_blind_cnt := cnt }
  else { vb with heavies_blind_cnt := cnt,
                 heavies := vb.heavies.map (fun _ => true) }

/-- Embedding of `FinViewBox.add_heavy_item`: register a new heavy item hidden and reset
the countdown to 50 ticks. -/
def FinViewBox.add_heavy_item (vb : FinViewBox) : FinViewBox :=
  { vb with heavies := vb.heavies ++ [false], heavies_blind_cnt := 50 }

/-- Embedding of `FinViewBox.wheelEvent`, after the toolkit has produced the scale factor
`1.02 ** (delta * wheelScaleFactor)` (kept as the parameter `scale_fact`,
one fixed value per wheel delta) and mapped the cursor into data
coordinates: snap the zoom center to the left edge when the cursor sits in
the left 20 % of the viewport width, to the right edge in the right 20 %,
then delegate to `scaleRect` on the target rectangle. -/
def FinViewBox.wheelEvent (vb : FinViewBox) (scale_fact : ℚ)
    (cursor : ℚ × ℚ) : FinViewBox :=
  let vr := vb.targetRect
  let center :=
    if (cursor.1 - vr.x0) / (vr.x1 - vr.x0) < 1/5 then (vr.x0, cursor.2)
    else if 4/5 < (cursor.1 - vr.x0) / (vr.x1 - vr.x0) then (vr.x1, cursor.2)
    else cursor
  vb.scaleRect vr scale_fact (some center)

/-- Embedding of `FinViewBox.suggestPadding`: the controller always reports zero margin. -/
def FinViewBox.suggestPadding ( _vb : FinViewBox) : ℚ := 0

/-- Embedding of `set_y_range`: disable the auto-Y-scale flag. The accompanying
`ax.setLimits(yMin=..., yMax=...)` call lives in the toolkit; it clamps the
committed Y range into `[ymin, ymax]` but does not freeze it, so it cannot
keep `scaleRect` from moving the Y bounds inside those limits. -/
def set_y_range (vb : FinViewBox) ( _ymin _ymax : ℚ) : FinViewBox :=
  { vb with auto_scale_y := false }

/-- The single-entry cache is consistent with the table: whatever it holds is
the raw answer for its own key. Freshly constructed stores satisfy this
vacuously (their cache is empty), and `hilo` preserves it while the data is
unchanged. -/
def cacheConsistent (s : PandasDataSource) : Prop :=
  ∀ q ans, s.cache_hilo = some (q, ans) → ans = s._hilo q.1 q.2

/-- Every registered heavy item of the viewport is currently hidden. -/
def allHidden (vb : FinViewBox) : Prop :=
  ∀ b ∈ vb.heavies, b = false

/-- Every registered heavy item of the viewport is currently visible. -/
def allVisible (vb : FinViewBox) : Prop :=
  ∀ b ∈ vb.heavies, b = true

/-- A uniform table fixture: `n` rows at times `0, 1, ..., n - 1`, one value
column constantly `10`. -/
def rowsN (n : ℕ) : List Row :=
  (List.range n).map (fun i => ⟨(i : ℚ), [10]⟩)

/-- A freshly constructed store over `rowsN n` (empty cache, skip count 1). -/
def storeN (n : ℕ) : PandasDataSource :=
  ⟨rowsN n, 1, none⟩

/-- A two-row store used to exhibit the behaviour of inverted windows. -/
def pairStore : PandasDataSource :=
  ⟨[⟨0, [5]⟩, ⟨1, [7]⟩], 1, none⟩

/-- Viewport fixture bound to a 25-row store, target rectangle
`[0, 24] × [0, 100]`, one registered heavy item. -/
def vbFixed : FinViewBox :=
  ⟨some (storeN 25), true, ⟨0, 0, 24, 100⟩, [true], 50⟩

/-- Viewport fixture bound to a 19-row store (rejection side of the
minimum-sample gate). -/
def vb19 : FinViewBox :=
  ⟨some (storeN 19), true, ⟨0, 0, 18, 1⟩, [], 50⟩

/-- Viewport fixture bound to a 20-row store (acceptance side of the
minimum-sample gate). -/
def vb20 : FinViewBox :=
  ⟨some (storeN 20), true, ⟨0, 0, 19, 1⟩, [], 50⟩

/-- Viewport fixture with two registered heavy items, used for the
deferred-render gate. -/
def vbGate : FinViewBox :=
  ⟨none, true, ⟨0, 0, 1, 1⟩, [true, false], 50⟩

/-- Viewport fixture with target rectangle `[0, 10] × [0, 5]`, used for the
wheel-zoom edge snap. -/
def vbWheel : FinViewBox :=
  ⟨none, true, ⟨0, 0, 10, 5⟩, [], 50⟩

section Lemmas

open PandasDataSource FinViewBox

theorem hilo_snd_rows (s : PandasDataSource) (x0 x1 : ℚ) :
    ((s.hilo x0 x1).2).rows = s.rows := by
  unfold PandasDataSource.hilo
  rcases h : s.cache_hilo with _ | ⟨q, ans⟩ <;> simp
  split <;> simp

theorem hilo_snd_skip (s : PandasDataSource) (x0 x1 : ℚ) :
    ((s.hilo x0 x1).2).skip_scale_colcnt = s.skip_scale_colcnt := by
  unfold PandasDataSource.hilo
  rcases h : s.cache_hilo with _ | ⟨q, ans⟩ <;> simp
  split <;> simp

theorem hilo_snd_cache (s : PandasDataSource) (x0 x1 : ℚ) :
    ((s.hilo x0 x1).2).cache_hilo = some ((x0, x1), (s.hilo x0 x1).1) := by
  unfold PandasDataSource.hilo
  rcases h : s.cache_hilo with _ | ⟨q, ans⟩
  · simp
  · by_cases hq : q = (x0, x1) <;> simp [hq, h]

theorem _hilo_congr {s s' : PandasDataSource} (hr : s.rows = s'.rows)
    (hk : s.skip_scale_colcnt = s'.skip_scale_colcnt) (x0 x1 : ℚ) :
    s._hilo x0 x1 = s'._hilo x0 x1 := by
  unfold PandasDataSource._hilo
  rw [hr, hk]

theorem hilo_fst_of_consistent (s : PandasDataSource) (x0 x1 : ℚ)
    (hs : cacheConsistent s) : (s.hilo x0 x1).1 = s._hilo x0 x1 := by
  unfold PandasDataSource.hilo
  rcases h : s.cache_hilo with _ | ⟨q, ans⟩
  · simp
  · by_cases hq : q = (x0, x1)
    · have := hs q ans h
      subst hq
      simpa using this
    · simp [hq]

theorem cacheConsistent_hilo (s : PandasDataSource) (x0 x1 : ℚ)
    (hs : cacheConsistent s) : cacheConsistent ((s.hilo x0 x1).2) := by
  intro q ans h
  rw [hilo_snd_cache] at h
  simp only [Option.some.injEq, Prod.mk.injEq] at h
  obtain ⟨hq, hans⟩ := h
  subst hq
  rw [← hans, hilo_fst_of_consistent s x0 x1 hs]
  exact (_hilo_congr (hilo_snd_rows s x0 x1) (hilo_snd_skip s x0 x1) x0 x1).symm

theorem show_heavies_cnt (vb : FinViewBox) :
    (vb.show_heavies).heavies_blind_cnt = vb.heavies_blind_cnt - 1 := by
  unfold FinViewBox.show_heavies
  dsimp only
  split <;> rfl

theorem iterate_show_heavies_cnt (k : ℕ) (vb : FinViewBox) :
    (FinViewBox.show_heavies^[k] vb).heavies_blind_cnt
      = vb.heavies_blind_cnt - k := by
  induction k generalizing vb with
  | zero => simp
  | succ n ih =>
      rw [Function.iterate_succ_apply, ih, show_heavies_cnt]
      push_cast
      ring

theorem show_heavies_keeps_items (vb : FinViewBox)
    (h : vb.heavies_blind_cnt ≠ 1) : (vb.show_heavies).heavies = vb.heavies := by
  unfold FinViewBox.show_heavies
  rw [if_pos (by simpa [sub_eq_zero] using h)]

theorem show_heavies_reveals (vb : FinViewBox)
    (h : vb.heavies_blind_cnt = 1) :
    (vb.show_heavies).heavies = vb.heavies.map (fun _ => true) := by
  unfold FinViewBox.show_heavies
  rw [if_neg (by simp [sub_eq_zero, h])]

theorem gate_stays_hidden (vb : FinViewBox) (h2 : vb.heavies_blind_cnt = 2)
    (hh : allHidden vb) :
    ∀ k, k < 2 → allHidden (FinViewBox.show_heavies^[k] vb) := by
  intro k hk
  interval_cases k
  · simpa using hh
  · rw [Function.iterate_one]
    have he := show_heavies_keeps_items vb (by omega)
    intro b hb
    rw [he] at hb
    exact hh b hb

theorem gate_visible_aux (vb : FinViewBox) (h2 : vb.heavies_blind_cnt = 2) :
    ∀ m, allVisible (FinViewBox.show_heavies^[m + 2] vb) := by
  intro m
  induction m with
  | zero =>
      have h1 : (vb.show_heavies).heavies_blind_cnt = 1 := by
        rw [show_heavies_cnt, h2]; norm_num
      have he := show_heavies_reveals vb.show_heavies h1
      intro b hb
      rw [show (FinViewBox.show_heavies^[0 + 2] vb
            = (vb.show_heavies).show_heavies) from rfl, he] at hb
      obtain ⟨a, -, hab⟩ := List.mem_map.mp hb
      simpa using hab.symm
  | succ n ih =>
      have hc : (FinViewBox.show_heavies^[n + 2] vb).heavies_blind_cnt
          = vb.heavies_blind_cnt - (n + 2) := iterate_show_heavies_cnt _ _
      have hne : (FinViewBox.show_heavies^[n + 2] vb).heavies_blind_cnt ≠ 1 := by
        rw [hc, h2]; omega
      intro b hb
      rw [show n + 1 + 2 = (n + 2) + 1 from rfl,
        Function.iterate_succ_apply',
        show_heavies_keeps_items _ hne] at hb
      exact ih b hb

theorem gate_visible (vb : FinViewBox) (h2 : vb.heavies_blind_cnt = 2) :
    ∀ k, 2 ≤ k → allVisible (FinViewBox.show_heavies^[k] vb) := by
  intro k hk
  obtain ⟨m, rfl⟩ : ∃ m, k = m + 2 := ⟨k - 2, by omega⟩
  exact gate_visible_aux vb h2 m

theorem decide_le_eq_not_decide_lt (a b : ℚ) :
    decide (a ≤ b) = !decide (b < a) := by
  by_cases h : b < a
  · simp [h, not_le.mpr h]
  · simp [h, not_lt.mp h]

theorem bullP_eq_not_bearP (r : Row) : bullP r = !bearP r := by
  unfold bullP bearP
  exact decide_le_eq_not_decide_lt _ _

theorem length_filter_add_length_filter_not (p : Row → Bool) (l : List Row) :
    (l.filter p).length + (l.filter (fun a => !p a)).length = l.length := by
  induction l with
  | nil => rfl
  | cons a l ih => by_cases h : p a <;> simp [List.filter_cons, h] <;> omega

theorem hilo_hit (s : PandasDataSource) (x0 x1 : ℚ) (ans : HiLo)
    (h : s.cache_hilo = some ((x0, x1), ans)) : s.hilo x0 x1 = (ans, s) := by
  unfold PandasDataSource.hilo
  rw [h]
  simp

theorem hilo_snd_period (s : PandasDataSource) (x0 x1 : ℚ) :
    ((s.hilo x0 x1).2).period = s.period := by
  unfold PandasDataSource.period
  rw [hilo_snd_rows]

end Lemmas

section Claims

open PandasDataSource FinViewBox

/-- C2 counterexample: `hilo` does not normalize an inverted window. On the
two-row store, `hilo(1, 0)` returns the zero-count sentinel while
`hilo(0, 1)` returns the populated answer, so the two differ. -/
theorem hilo_swap_counterexample :
    (pairStore.hilo 1 0).1 ≠ (pairStore.hilo 0 1).1 := by
  decide

/-- C2 (amended): for every store and every window `(x0, x1)` with
`x0 > x1`, the raw range query `_hilo` returns the zero-count sentinel
`(0, 0, 0, 0, 0)` — the inverted window is treated as empty, it is not
normalized to `(min, max)`. -/
theorem hilo_inverted_window_sentinel (s : PandasDataSource) (x0 x1 : ℚ)
    (h : x1 < x0) : s._hilo x0 x1 = ⟨0, 0, 0, 0, 0⟩ := by
  unfold PandasDataSource._hilo
  have hf : s.rows.filter (inWindow x0 x1) = [] := by
    rw [List.filter_eq_nil_iff]
    intro r hr
    unfold inWindow
    simp only [Bool.and_eq_true, decide_eq_true_eq, not_and]
    intro h1 h2
    exact absurd (le_trans h1 h2) (not_le.mpr h)
  rw [hf]

/-- Witness for C2's amended theorem at the concrete inverted window
`(1, 0)` on the two-row store. -/
theorem hilo_inverted_window_sentinel_witness :
    (0 : ℚ) < 1 ∧ pairStore._hilo 1 0 = ⟨0, 0, 0, 0, 0⟩ :=
  ⟨by norm_num, hilo_inverted_window_sentinel pairStore 1 0 (by norm_num)⟩

/-- C9: when no row's time lies in `[x0, x1]`, the range query returns the
sentinel tuple with count 0 and all other fields 0 (and, being a total
function, raises nothing). -/
theorem hilo_empty_window_sentinel (s : PandasDataSource) (x0 x1 : ℚ)
    (h : ∀ r ∈ s.rows, ¬(x0 ≤ r.t ∧ r.t ≤ x1)) :
    s._hilo x0 x1 = ⟨0, 0, 0, 0, 0⟩ := by
  unfold PandasDataSource._hilo
  have hf : s.rows.filter (inWindow x0 x1) = [] := by
    rw [List.filter_eq_nil_iff]
    intro r hr
    unfold inWindow
    simp only [Bool.and_eq_true, decide_eq_true_eq, not_and]
    intro h1 h2
    exact h r hr ⟨h1, h2⟩
  rw [hf]

/-- Witness for C9: the window `[10, 20]` holds none of the three rows of
`storeN 3`, and the query returns the sentinel. -/
theorem hilo_empty_window_sentinel_witness :
    (∀ r ∈ (storeN 3).rows, ¬((10 : ℚ) ≤ r.t ∧ r.t ≤ 20))
  ∧ (storeN 3)._hilo 10 20 = ⟨0, 0, 0, 0, 0⟩ :=
  ⟨by decide, hilo_empty_window_sentinel (storeN 3) 10 20 (by decide)⟩

/-- C5: with a consistent cache and unchanged data, a second `hilo` call on
the identical window is a cache hit returning the identical answer and
store, and a call on a different window followed by the original window
returns exactly the direct uncached computation `_hilo` on the original
window. -/
theorem hilo_cache_idempotent (s : PandasDataSource) (x0 x1 y0 y1 : ℚ)
    (hs : cacheConsistent s) :
    ((s.hilo x0 x1).2).hilo x0 x1 = ((s.hilo x0 x1).1, (s.hilo x0 x1).2)
  ∧ ((((s.hilo x0 x1).2).hilo y0 y1).2.hilo x0 x1).1 = s._hilo x0 x1 := by
  have hs1 := cacheConsistent_hilo s x0 x1 hs
  have hs2 := cacheConsistent_hilo _ y0 y1 hs1
  constructor
  · exact hilo_hit _ x0 x1 _ (hilo_snd_cache s x0 x1)
  · rw [hilo_fst_of_consistent _ x0 x1 hs2]
    refine _hilo_congr ?_ ?_ x0 x1
    · rw [hilo_snd_rows, hilo_snd_rows]
    · rw [hilo_snd_skip, hilo_snd_skip]

/-- Witness for C5 on a fresh three-row store with windows `(0, 2)` and
`(0, 1)`. -/
theorem hilo_cache_idempotent_witness :
    cacheConsistent (storeN 3)
  ∧ ((storeN 3).hilo 0 2).2.hilo 0 2
      = (((storeN 3).hilo 0 2).1, ((storeN 3).hilo 0 2).2)
  ∧ ((((storeN 3).hilo 0 2).2.hilo 0 1).2.hilo 0 2).1 = (storeN 3)._hilo 0 2 := by
  have hc : cacheConsistent (storeN 3) := by
    intro q ans h
    simp [storeN] at h
  exact ⟨hc, (hilo_cache_idempotent (storeN 3) 0 2 0 1 hc).1,
    (hilo_cache_idempotent (storeN 3) 0 2 0 1 hc).2⟩

/-- C6: `addcols` leaves the single-entry cache untouched, so after a
`hilo` call and a column merge, a repeated `hilo` call with the same window
(hence the same cache key) returns the pre-merge cached answer — the new
columns do not influence the result. -/
theorem addcols_keeps_stale_cache (s : PandasDataSource) (x0 x1 : ℚ)
    (other : List Row) :
    (s.addcols other).cache_hilo = s.cache_hilo
  ∧ ((((s.hilo x0 x1).2).addcols other).hilo x0 x1).1 = (s.hilo x0 x1).1 := by
  refine ⟨rfl, ?_⟩
  rw [hilo_hit (((s.hilo x0 x1).2).addcols other) x0 x1 ((s.hilo x0 x1).1)
    (hilo_snd_cache s x0 x1)]

/-- C8: `bear_rows` (open above close) and `bull_rows` (open at or below
close) are a strict binary partition of the table: their sizes sum to the
row count, both preserve the original row order (they are sublists), and
every row belongs to exactly one of the two. -/
theorem bear_bull_partition (s : PandasDataSource) :
    s.bear_rows.length + s.bull_rows.length = s.rows.length
  ∧ s.bear_rows.Sublist s.rows
  ∧ s.bull_rows.Sublist s.rows
  ∧ ∀ r ∈ s.rows, (r ∈ s.bear_rows ∧ r ∉ s.bull_rows)
      ∨ (r ∈ s.bull_rows ∧ r ∉ s.bear_rows) := by
  refine ⟨?_, List.filter_sublist _, List.filter_sublist _, ?_⟩
  · unfold PandasDataSource.bear_rows PandasDataSource.bull_rows
    rw [List.filter_congr (fun r _ => bullP_eq_not_bearP r)]
    exact length_filter_add_length_filter_not bearP s.rows
  · intro r hr
    by_cases h : bearP r
    · left
      refine ⟨List.mem_filter.mpr ⟨hr, h⟩, fun hmem => ?_⟩
      have hb := (List.mem_filter.mp hmem).2
      rw [bullP_eq_not_bearP, h] at hb
      simp at hb
    · right
      have hb : bullP r = true := by
        rw [bullP_eq_not_bearP]
        simp [h]
      refine ⟨List.mem_filter.mpr ⟨hr, hb⟩, fun hmem => ?_⟩
      exact h ((List.mem_filter.mp hmem).2)

/-- C3: when the range query over the candidate window finds fewer than 20
rows, `scaleRect` leaves the viewport rectangle exactly as before (the
rescale is rejected); when it finds 20 or more, `scaleRect` commits the new
rectangle (padded time bounds, query's lo/hi). -/
theorem scaleRect_min_sample_gate (vb : FinViewBox) (ds : PandasDataSource)
    (vr : Rect) (sf : ℚ) (c : Option (ℚ × ℚ)) (h : vb.datasrc = some ds) :
    ((ds.hilo (zoomWindow vr sf c).1 (zoomWindow vr sf c).2).1.cnt < 20 →
      (vb.scaleRect vr sf c).targetRect = vb.targetRect)
  ∧ (20 ≤ (ds.hilo (zoomWindow vr sf c).1 (zoomWindow vr sf c).2).1.cnt →
      (vb.scaleRect vr sf c).targetRect
        = commitRect ((ds.hilo (zoomWindow vr sf c).1
              (zoomWindow vr sf c).2).2).period
            (ds.hilo (zoomWindow vr sf c).1 (zoomWindow vr sf c).2).1) := by
  unfold FinViewBox.scaleRect
  rw [h]
  dsimp only
  split_ifs with hlt
  · exact ⟨fun _ => rfl, fun hge => absurd hlt (by omega)⟩
  · exact ⟨fun hlt2 => absurd hlt2 hlt, fun _ => rfl⟩

/-- Witness for C3: a 19-row store rejects (rectangle untouched), a 20-row
store commits. -/
theorem scaleRect_min_sample_gate_witness :
    ((storeN 19).hilo 0 18).1.cnt = 19
  ∧ (vb19.scaleRect vb19.targetRect 1 none).targetRect = vb19.targetRect
  ∧ ((storeN 20).hilo 0 19).1.cnt = 20
  ∧ (vb20.scaleRect vb20.targetRect 1 none).targetRect
      = ⟨-(1/2), 10, 39/2, 10⟩ := by
  have hz19 : zoomWindow vb19.targetRect 1 none = (0, 18) := by
    norm_num [zoomWindow, vb19]
  have hz20 : zoomWindow vb20.targetRect 1 none = (0, 19) := by
    norm_num [zoomWindow, vb20]
  have h19 : (storeN 19).hilo 0 18
      = (⟨0, 18, 10, 10, 19⟩,
         ⟨rowsN 19, 1, some ((0, 18), ⟨0, 18, 10, 10, 19⟩)⟩) := by decide
  have h20 : (storeN 20).hilo 0 19
      = (⟨0, 19, 10, 10, 20⟩,
         ⟨rowsN 20, 1, some ((0, 19), ⟨0, 19, 10, 10, 20⟩)⟩) := by decide
  refine ⟨by rw [h19], ?_, by rw [h20], ?_⟩
  · have hrej := (scaleRect_min_sample_gate vb19 (storeN 19)
      vb19.targetRect 1 none rfl).1
    rw [hz19] at hrej
    exact hrej (by rw [h19]; decide)
  · have hcom := (scaleRect_min_sample_gate vb20 (storeN 20)
      vb20.targetRect 1 none rfl).2
    rw [hz20] at hcom
    have h2 := hcom (by rw [h20])
    rw [h20] at h2
    rw [h2]
    have hp : (⟨rowsN 20, 1, some ((0, 19), ⟨0, 19, 10, 10, 20⟩)⟩ :
        PandasDataSource).period = 1 - 0 := rfl
    rw [hp]
    norm_num [commitRect, Rect.mk.injEq]

/-- C4: every accepted rescale commits the rectangle with X bounds exactly
`[t0 - period/2, t1 + period/2]` and Y bounds exactly `[lo, hi]`, with no
additional padding (`setRange` is called with `padding=0`). -/
theorem scaleRect_commit_exact (vb : FinViewBox) (ds : PandasDataSource)
    (vr : Rect) (sf : ℚ) (c : Option (ℚ × ℚ)) (h : vb.datasrc = some ds)
    (hge : 20 ≤ (ds.hilo (zoomWindow vr sf c).1 (zoomWindow vr sf c).2).1.cnt) :
    (vb.scaleRect vr sf c).targetRect
      = ⟨(ds.hilo (zoomWindow vr sf c).1 (zoomWindow vr sf c).2).1.t0
            - ds.period / 2,
         (ds.hilo (zoomWindow vr sf c).1 (zoomWindow vr sf c).2).1.lo,
         (ds.hilo (zoomWindow vr sf c).1 (zoomWindow vr sf c).2).1.t1
            + ds.period / 2,
         (ds.hilo (zoomWindow vr sf c).1 (zoomWindow vr sf c).2).1.hi⟩ := by
  unfold FinViewBox.scaleRect
  rw [h]
  dsimp only
  rw [if_neg (by omega)]
  simp only [FinViewBox._setRange]
  rw [hilo_snd_period]

/-- Witness for C4: the 25-row store commits exactly
`[-1/2, 49/2] × [10, 10]`. -/
theorem scaleRect_commit_exact_witness :
    20 ≤ ((storeN 25).hilo 0 24).1.cnt
  ∧ (vbFixed.scaleRect vbFixed.targetRect 1 none).targetRect
      = ⟨-(1/2), 10, 49/2, 10⟩ := by
  have hz : zoomWindow vbFixed.targetRect 1 none = (0, 24) := by
    norm_num [zoomWindow, vbFixed]
  have hge : 20 ≤ ((storeN 25).hilo (zoomWindow vbFixed.targetRect 1 none).1
      (zoomWindow vbFixed.targetRect 1 none).2).1.cnt := by
    rw [hz]; decide
  refine ⟨by decide, ?_⟩
  have hres := scaleRect_commit_exact vbFixed (storeN 25)
    vbFixed.targetRect 1 none rfl hge
  rw [hres, hz]
  dsimp only
  have h25 : (storeN 25).hilo 0 24
      = (⟨0, 24, 10, 10, 25⟩,
         ⟨rowsN 25, 1, some ((0, 24), ⟨0, 24, 10, 10, 25⟩)⟩) := by decide
  rw [h25]
  have hp : (storeN 25).period = 1 - 0 := rfl
  rw [hp]
  norm_num [Rect.mk.injEq]

/-- C1 (exhibiting the code bug): `set_y_range` turns the `auto_scale_y`
flag off, but `scaleRect` never consults that flag — an accepted rescale on
the fixed-Y viewport still replaces the Y bounds `[0, 100]` with the
query's `[lo, hi] = [10, 10]` instead of leaving them unchanged. -/
theorem set_y_range_then_scaleRect_moves_y :
    (set_y_range vbFixed 0 100).auto_scale_y = false
  ∧ (set_y_range vbFixed 0 100).targetRect.y0 = 0
  ∧ (set_y_range vbFixed 0 100).targetRect.y1 = 100
  ∧ ((set_y_range vbFixed 0 100).scaleRect
        (set_y_range vbFixed 0 100).targetRect 1 none).targetRect
      = ⟨-(1/2), 10, 49/2, 10⟩ := by
  refine ⟨rfl, rfl, rfl, ?_⟩
  have hz : zoomWindow (⟨0, 0, 24, 100⟩ : Rect) 1 none = (0, 24) := by
    norm_num [zoomWindow]
  have h25 : (storeN 25).hilo 0 24
      = (⟨0, 24, 10, 10, 25⟩,
         ⟨rowsN 25, 1, some ((0, 24), ⟨0, 24, 10, 10, 25⟩)⟩) := by decide
  have hp : (⟨rowsN 25, 1, some ((0, 24), ⟨0, 24, 10, 10, 25⟩)⟩ :
      PandasDataSource).period = 1 - 0 := rfl
  simp only [set_y_range, vbFixed, FinViewBox.scaleRect, hz, h25, hp,
    FinViewBox._setRange]
  norm_num

/-- C7: after a suppress (`_setRange`, which hides the registered heavy
items and arms the counter at N = 2), the items stay hidden at every tick
count below 2 and are visible from exactly the 2nd tick on; the counter
after `k` ticks is exactly `2 - k`, so the reveal (counter hitting 0) fires
exactly once, at tick 2; and a further suppress issued before the counter
reaches zero restarts the countdown — hidden for 2 more ticks from that
point, visible from exactly 2 ticks after it. -/
theorem deferred_gate_countdown (vb : FinViewBox) (x0 y0 x1 y1 : ℚ) :
    (∀ k, k < 2 →
      allHidden (FinViewBox.show_heavies^[k] (vb._setRange x0 y0 x1 y1)))
  ∧ (∀ k, 2 ≤ k →
      allVisible (FinViewBox.show_heavies^[k] (vb._setRange x0 y0 x1 y1)))
  ∧ (∀ k, (FinViewBox.show_heavies^[k]
        (vb._setRange x0 y0 x1 y1)).heavies_blind_cnt = 2 - (k : ℤ))
  ∧ (∀ j, j < 2 → ∀ x0' y0' x1' y1',
      (∀ k, k < 2 → allHidden (FinViewBox.show_heavies^[k]
        ((FinViewBox.show_heavies^[j]
          (vb._setRange x0 y0 x1 y1))._setRange x0' y0' x1' y1')))
    ∧ (∀ k, 2 ≤ k → allVisible (FinViewBox.show_heavies^[k]
        ((FinViewBox.show_heavies^[j]
          (vb._setRange x0 y0 x1 y1))._setRange x0' y0' x1' y1')))) := by
  have hcnt : ∀ (v : FinViewBox) (a b c d : ℚ),
      (v._setRange a b c d).heavies_blind_cnt = 2 := fun _ _ _ _ _ => rfl
  have hhid : ∀ (v : FinViewBox) (a b c d : ℚ),
      allHidden (v._setRange a b c d) := by
    intro v a b c d bb hb
    simp only [FinViewBox._setRange] at hb
    obtain ⟨a', -, ha⟩ := List.mem_map.mp hb
    exact ha.symm
  refine ⟨gate_stays_hidden _ (hcnt _ _ _ _ _) (hhid _ _ _ _ _),
          gate_visible _ (hcnt _ _ _ _ _), ?_,
          fun j hj x0' y0' x1' y1' =>
            ⟨gate_stays_hidden _ (hcnt _ _ _ _ _) (hhid _ _ _ _ _),
             gate_visible _ (hcnt _ _ _ _ _)⟩⟩
  intro k
  rw [iterate_show_heavies_cnt, hcnt]

/-- Witness for C7 on a viewport with two registered heavy items: hidden at
tick 1, visible at tick 2, and hidden again at tick 1 after a re-suppress
issued at tick 1. -/
theorem deferred_gate_countdown_witness :
    allHidden (FinViewBox.show_heavies^[1] (vbGate._setRange 0 0 1 1))
  ∧ allVisible (FinViewBox.show_heavies^[2] (vbGate._setRange 0 0 1 1))
  ∧ allHidden (FinViewBox.show_heavies^[1]
      ((FinViewBox.show_heavies^[1]
        (vbGate._setRange 0 0 1 1))._setRange 2 2 3 3)) :=
  ⟨(deferred_gate_countdown vbGate 0 0 1 1).1 1 (by norm_num),
   (deferred_gate_countdown vbGate 0 0 1 1).2.1 2 (le_refl 2),
   ((deferred_gate_countdown vbGate 0 0 1 1).2.2.2 1 (by norm_num)
      2 2 3 3).1 1 (by norm_num)⟩

/-- C10: a wheel event with the cursor at x-fraction 1/10 of the viewport
width produces the same resulting viewport as one with the cursor at
fraction 0 (both snap the zoom center to the left edge), and a cursor at
fraction 9/10 produces the same viewport as one at fraction 1 (both snap to
the right edge). -/
theorem wheelEvent_edge_snap (vb : FinViewBox) (sf cy : ℚ)
    (hw : 0 < vb.targetRect.x1 - vb.targetRect.x0) :
    vb.wheelEvent sf
        (vb.targetRect.x0 + (vb.targetRect.x1 - vb.targetRect.x0) / 10, cy)
      = vb.wheelEvent sf (vb.targetRect.x0, cy)
  ∧ vb.wheelEvent sf
        (vb.targetRect.x0 + 9 * (vb.targetRect.x1 - vb.targetRect.x0) / 10, cy)
      = vb.wheelEvent sf (vb.targetRect.x1, cy) := by
  have hne : vb.targetRect.x1 - vb.targetRect.x0 ≠ 0 := ne_of_gt hw
  have e1 : (vb.targetRect.x0 + (vb.targetRect.x1 - vb.targetRect.x0) / 10
      - vb.targetRect.x0) / (vb.targetRect.x1 - vb.targetRect.x0)
      = 1 / 10 := by
    field_simp
    ring
  have e2 : (vb.targetRect.x0 - vb.targetRect.x0)
      / (vb.targetRect.x1 - vb.targetRect.x0) = 0 := by
    rw [sub_self, zero_div]
  have e3 : (vb.targetRect.x0 + 9 * (vb.targetRect.x1 - vb.targetRect.x0) / 10
      - vb.targetRect.x0) / (vb.targetRect.x1 - vb.targetRect.x0)
      = 9 / 10 := by
    field_simp
    ring
  have e4 : (vb.targetRect.x1 - vb.targetRect.x0)
      / (vb.targetRect.x1 - vb.targetRect.x0) = 1 := div_self hne
  constructor
  · have c1 : (vb.targetRect.x0 + (vb.targetRect.x1 - vb.targetRect.x0) / 10
        - vb.targetRect.x0) / (vb.targetRect.x1 - vb.targetRect.x0)
        < 1 / 5 := by rw [e1]; norm_num
    have c2 : (vb.targetRect.x0 - vb.targetRect.x0)
        / (vb.targetRect.x1 - vb.targetRect.x0) < 1 / 5 := by
      rw [e2]; norm_num
    unfold FinViewBox.wheelEvent
    dsimp only
    rw [if_pos c1, if_pos c2]
  · have c3 : ¬((vb.targetRect.x0
        + 9 * (vb.targetRect.x1 - vb.targetRect.x0) / 10
        - vb.targetRect.x0) / (vb.targetRect.x1 - vb.targetRect.x0)
        < 1 / 5) := by rw [e3]; norm_num
    have c4 : (4 / 5 : ℚ) < (vb.targetRect.x0
        + 9 * (vb.targetRect.x1 - vb.targetRect.x0) / 10
        - vb.targetRect.x0) / (vb.targetRect.x1 - vb.targetRect.x0) := by
      rw [e3]; norm_num
    have c5 : ¬((vb.targetRect.x1 - vb.targetRect.x0)
        / (vb.targetRect.x1 - vb.targetRect.x0) < 1 / 5) := by
      rw [e4]; norm_num
    have c6 : (4 / 5 : ℚ) < (vb.targetRect.x1 - vb.targetRect.x0)
        / (vb.targetRect.x1 - vb.targetRect.x0) := by
      rw [e4]; norm_num
    unfold FinViewBox.wheelEvent
    dsimp only
    rw [if_neg c3, if_pos c4, if_neg c5, if_pos c6]

/-- Witness for C10 on the `[0, 10] × [0, 5]` viewport. -/
theorem wheelEvent_edge_snap_witness :
    (0 : ℚ) < vbWheel.targetRect.x1 - vbWheel.targetRect.x0
  ∧ vbWheel.wheelEvent 1
        (vbWheel.targetRect.x0
          + (vbWheel.targetRect.x1 - vbWheel.targetRect.x0) / 10, 0)
      = vbWheel.wheelEvent 1 (vbWheel.targetRect.x0, 0)
  ∧ vbWheel.wheelEvent 1
        (vbWheel.targetRect.x0
          + 9 * (vbWheel.targetRect.x1 - vbWheel.targetRect.x0) / 10, 0)
      = vbWheel.wheelEvent 1 (vbWheel.targetRect.x1, 0) := by
  have h : (0 : ℚ) < vbWheel.targetRect.x1 - vbWheel.targetRect.x0 := by
    norm_num [vbWheel]
  exact ⟨h, (wheelEvent_edge_snap vbWheel 1 0 h).1,
    (wheelEvent_edge_snap vbWheel 1 0 h).2⟩

end Claims

end Finplot
